import Mathlib

/-!
Verification of the ERA5 per-city extraction scripts
(`extract_era5_batch.py`, point mode; `extract_era5_cities.py`, region mode).

The scripts are embedded shallowly:
* grid axes and coordinates are rational numbers (`ℚ`);
* the float NaN "no data" sentinel is modelled by `Option.none`
  (a cell is `none` exactly when the code writes `np.nan` into it);
* a Python exception propagating out of a loop is modelled by
  `Except.error`, and a caught-and-continue handler by recording the
  error message and moving on to the next item;
* timestamps within one year are `(month, day, hour)` triples; region-mode
  timestamps carry the year as well.
-/

namespace Era5

/-- Leap-year test as used by Python's `calendar.monthrange`
(Gregorian rule). -/
def isLeap (y : Nat) : Bool :=
  (y % 4 == 0 && y % 100 != 0) || (y % 400 == 0)

/-- Number of days in month `m` of year `y`
(`calendar.monthrange(year, month)[1]`). -/
def monthrange (y m : Nat) : Nat :=
  if m = 2 then (if isLeap y then 29 else 28)
  else if m = 4 ∨ m = 6 ∨ m = 9 ∨ m = 11 then 30
  else 31

/-- A timestamp within a fixed year: `(month, day, hour)`. -/
abbrev TS := Nat × Nat × Nat

/-- One month's worth of hourly timestamps: days 1..monthrange, hours
0..23, in nested loop order. -/
def monthBlock (y m : Nat) : List TS :=
  ((List.range (monthrange y m)).map (· + 1)).flatMap fun d =>
    (List.range 24).map fun h => (m, d, h)

/-- The timestamp list built by `extract_year` (lines 105-110 of
`extract_era5_batch.py`): months 1..12, days 1..monthrange, hours 0..23,
in nested loop order. -/
def yearTimestamps (y : Nat) : List TS :=
  ((List.range 12).map (· + 1)).flatMap (monthBlock y)

/-- Chronological strict order on same-year timestamps
(lexicographic on month, day, hour). -/
def chronLt (a b : TS) : Prop :=
  a.1 < b.1 ∨ (a.1 = b.1 ∧ (a.2.1 < b.2.1 ∨ (a.2.1 = b.2.1 ∧ a.2.2 < b.2.2)))

instance (a b : TS) : Decidable (chronLt a b) := by
  unfold chronLt; infer_instance

/-- Absolute value, written out as the code's `np.abs` on a difference
behaves (kept as an explicit `if` so that concrete values evaluate). -/
def qabs (x : ℚ) : ℚ := if x < 0 then -x else x

/-- Longitude normalization to the 0-360 convention: Python's `lon % 360`
on floats, i.e. `lon - 360 * floor(lon / 360)` (the result has the sign of
the divisor).  This is `lon_to_360` in `extract_era5_cities.py` and the
`df['lon'] % 360` column built by `load_cities` in `extract_era5_batch.py`. -/
def lon_to_360 (lon : ℚ) : ℚ :=
  lon - 360 * ⌊lon / 360⌋

/-- Index of the first minimum of a list (`numpy.argmin` semantics:
the lowest index attaining the minimal value; `0` on the empty list). -/
def argminList : List ℚ → Nat
  | [] => 0
  | [_] => 0
  | a :: b :: l =>
    let r := argminList (b :: l)
    if a ≤ (b :: l).getD r 0 then 0 else r + 1

/-- `np.abs(grid - q).argmin()`: index of the grid value nearest to `q`,
lowest index on an exact tie. -/
def argminAbs (grid : List ℚ) (q : ℚ) : Nat :=
  argminList (grid.map fun g => qabs (g - q))

/-- `precompute_indices` (lines 72-88 of `extract_era5_batch.py`): for each
city, the per-axis nearest indices into the grid axes; the longitude is
normalized first (the `lon_360` column built in `load_cities`).  The
function is total: it returns an index pair for every coordinate. -/
def precompute_indices (gridLats gridLons : List ℚ) (cities : List (ℚ × ℚ)) :
    List (Nat × Nat) :=
  cities.map fun c => (argminAbs gridLats c.1, argminAbs gridLons (lon_to_360 c.2))

/-! ### Helper lemmas about `argminList` -/

theorem argminList_lt_length : ∀ (l : List ℚ), l ≠ [] → argminList l < l.length
  | [], h => absurd rfl h
  | [_], _ => by simp [argminList]
  | a :: b :: l, _ => by
    have ih := argminList_lt_length (b :: l) (by simp)
    unfold argminList
    dsimp only
    split
    · simp
    · simpa using Nat.succ_lt_succ ih

theorem argminList_le :
    ∀ (l : List ℚ) (i : Nat), i < l.length → l.getD (argminList l) 0 ≤ l.getD i 0
  | [], i, h => by simp at h
  | [a], i, h => by
    have : i = 0 := by simpa using Nat.lt_one_iff.mp (by simpa using h)
    subst this; simp [argminList]
  | a :: b :: l, i, h => by
    have ih := fun j hj => argminList_le (b :: l) j hj
    have hr := argminList_lt_length (b :: l) (by simp)
    unfold argminList
    dsimp only
    split
    · rename_i hle
      cases i with
      | zero => simp
      | succ j =>
        have hj : j < (b :: l).length := by simpa using h
        calc (a :: b :: l).getD 0 0 = a := by simp
          _ ≤ (b :: l).getD (argminList (b :: l)) 0 := hle
          _ ≤ (b :: l).getD j 0 := ih j hj
          _ = (a :: b :: l).getD (j + 1) 0 := by simp [List.getD_cons_succ]
    · rename_i hgt
      push_neg at hgt
      cases i with
      | zero =>
        simpa [List.getD_cons_succ] using le_of_lt hgt
      | succ j =>
        have hj : j < (b :: l).length := by simpa using h
        simpa [List.getD_cons_succ] using ih j hj

theorem argminList_first :
    ∀ (l : List ℚ) (j : Nat), j < argminList l →
      l.getD j 0 > l.getD (argminList l) 0
  | [], j, h => by simp [argminList] at h
  | [a], j, h => by simp [argminList] at h
  | a :: b :: l, j, h => by
    have ih := fun j hj => argminList_first (b :: l) j hj
    unfold argminList at h ⊢
    dsimp only at h ⊢
    split
    · rename_i hle
      rw [if_pos hle] at h
      exact absurd h (Nat.not_lt_zero j)
    · rename_i hgt
      push_neg at hgt
      rw [if_neg (not_le.mpr hgt)] at h
      cases j with
      | zero => simpa [List.getD_cons_succ] using hgt
      | succ j =>
        have hj : j < argminList (b :: l) := Nat.lt_of_succ_lt_succ h
        simpa [List.getD_cons_succ] using ih j hj

/-! ### Helper lemmas about flatMap lists -/

theorem pairwise_flatMap {α β : Type} {R : β → β → Prop} (f : α → List β) :
    ∀ (l : List α), (∀ a ∈ l, (f a).Pairwise R) →
      l.Pairwise (fun a b => ∀ x ∈ f a, ∀ y ∈ f b, R x y) →
      (l.flatMap f).Pairwise R
  | [], _, _ => by simp
  | a :: l, h1, h2 => by
    rw [List.flatMap_cons, List.pairwise_append]
    refine ⟨h1 a (List.mem_cons_self a l),
      pairwise_flatMap f l (fun b hb => h1 b (List.mem_cons_of_mem a hb))
        (List.Pairwise.of_cons h2), ?_⟩
    intro x hx y hy
    obtain ⟨b, hb, hyb⟩ := List.mem_flatMap.mp hy
    exact (List.pairwise_cons.mp h2).1 b hb x hx y hyb

theorem countP_flatMap {α β : Type} (p : β → Bool) (f : α → List β) :
    ∀ l : List α, (l.flatMap f).countP p = (l.map fun a => (f a).countP p).sum
  | [] => by simp
  | a :: l => by
    rw [List.flatMap_cons, List.countP_append, countP_flatMap p f l]
    simp

theorem sum_map_const {α : Type} : ∀ (l : List α) (c : Nat),
    (l.map fun _ => c).sum = l.length * c
  | [], _ => by simp
  | a :: l, c => by
    simp [sum_map_const l c, Nat.succ_mul, Nat.add_comm]

/-! ### Properties of the generated timestamp sequence -/

theorem monthBlock_length (y m : Nat) : (monthBlock y m).length = monthrange y m * 24 := by
  unfold monthBlock
  rw [List.length_flatMap]
  simp only [List.map_map, Function.comp_def, List.length_map, List.length_range]
  rw [sum_map_const]
  simp

theorem mem_monthBlock_fst {y m : Nat} {x : TS} (hx : x ∈ monthBlock y m) : x.1 = m := by
  obtain ⟨d, _, hx⟩ := List.mem_flatMap.mp hx
  obtain ⟨h, _, rfl⟩ := List.mem_map.mp hx
  rfl

theorem monthBlock_sorted (y m : Nat) : (monthBlock y m).Pairwise chronLt := by
  unfold monthBlock
  refine pairwise_flatMap _ _ (fun d _ => ?_) ?_
  · refine List.Pairwise.map _ ?_ (List.pairwise_lt_range 24)
    intro h1 h2 hlt
    exact Or.inr ⟨rfl, Or.inr ⟨rfl, hlt⟩⟩
  · have hdays : ((List.range (monthrange y m)).map (· + 1)).Pairwise (· < ·) :=
      List.Pairwise.map _ (fun a b h => Nat.add_lt_add_right h 1) (List.pairwise_lt_range _)
    refine hdays.imp ?_
    intro d1 d2 hd x hx y hy
    obtain ⟨h1, _, rfl⟩ := List.mem_map.mp hx
    obtain ⟨h2, _, rfl⟩ := List.mem_map.mp hy
    exact Or.inr ⟨rfl, Or.inl hd⟩

theorem yearTimestamps_sorted (y : Nat) : (yearTimestamps y).Pairwise chronLt := by
  unfold yearTimestamps
  refine pairwise_flatMap _ _ (fun m _ => monthBlock_sorted y m) ?_
  have hms : ((List.range 12).map (· + 1)).Pairwise (· < ·) :=
    List.Pairwise.map _ (fun a b h => Nat.add_lt_add_right h 1) (List.pairwise_lt_range _)
  refine hms.imp ?_
  intro m1 m2 hm x hx y hy
  have hx1 := mem_monthBlock_fst hx
  have hy1 := mem_monthBlock_fst hy
  exact Or.inl (hx1 ▸ hy1 ▸ hm)

theorem chronLt_ne {a b : TS} (h : chronLt a b) : a ≠ b := by
  rintro rfl
  rcases h with h | ⟨_, h | ⟨_, h⟩⟩ <;> exact absurd h (lt_irrefl _)

theorem yearTimestamps_nodup (y : Nat) : (yearTimestamps y).Nodup :=
  (yearTimestamps_sorted y).imp chronLt_ne

theorem mem_yearTimestamps {y m d h : Nat} (h1 : 1 ≤ m) (h2 : m ≤ 12)
    (h3 : 1 ≤ d) (h4 : d ≤ monthrange y m) (h5 : h < 24) :
    ((m, d, h) : TS) ∈ yearTimestamps y := by
  unfold yearTimestamps monthBlock
  refine List.mem_flatMap.mpr ⟨m, ?_, ?_⟩
  · exact List.mem_map.mpr ⟨m - 1, List.mem_range.mpr (by omega), by omega⟩
  · refine List.mem_flatMap.mpr
      ⟨d, List.mem_map.mpr ⟨d - 1, List.mem_range.mpr (by omega), by omega⟩, ?_⟩
    exact List.mem_map.mpr ⟨h, List.mem_range.mpr h5, rfl⟩

theorem yearTimestamps_length (y : Nat) :
    (yearTimestamps y).length = (if isLeap y then 366 else 365) * 24 := by
  have hm : ((List.range 12).map (· + 1)) = [1, 2, 3, 4, 5, 6, 7, 8, 9, 10, 11, 12] := by
    decide
  unfold yearTimestamps
  rw [hm, List.length_flatMap]
  simp only [List.map_cons, List.map_nil, List.sum_cons, List.sum_nil,
    Function.comp_def, monthBlock_length]
  have h2 : monthrange y 2 = if isLeap y then 29 else 28 := by simp [monthrange]
  have hodd : ∀ m, m = 1 ∨ m = 3 ∨ m = 5 ∨ m = 7 ∨ m = 8 ∨ m = 10 ∨ m = 12 →
      monthrange y m = 31 := by
    rintro m (rfl | rfl | rfl | rfl | rfl | rfl | rfl) <;> simp [monthrange]
  have heven : ∀ m, m = 4 ∨ m = 6 ∨ m = 9 ∨ m = 11 → monthrange y m = 30 := by
    rintro m (rfl | rfl | rfl | rfl) <;> simp [monthrange]
  rw [hodd 1 (by omega), hodd 3 (by omega), hodd 5 (by omega), hodd 7 (by omega),
    hodd 8 (by omega), hodd 10 (by omega), hodd 12 (by omega),
    heven 4 (by omega), heven 6 (by omega), heven 9 (by omega), heven 11 (by omega), h2]
  cases isLeap y <;> norm_num

theorem monthBlock_countP_fst (y m : Nat) (p : Nat → Bool) :
    (monthBlock y m).countP (fun t => p t.1) = if p m then monthrange y m * 24 else 0 := by
  unfold monthBlock
  rw [countP_flatMap]
  have hday : ∀ d : Nat,
      (((List.range 24).map fun h => ((m, d, h) : TS)).countP fun t => p t.1) =
        if p m then 24 else 0 := by
    intro d
    rw [List.countP_map]
    cases hp : p m
    · simp [Function.comp_def, hp]
    · simp [Function.comp_def, hp]
  simp only [List.map_map, Function.comp_def, hday]
  cases hp : p m
  · simp
  · simp only [if_pos rfl, reduceIte]
    rw [sum_map_const]
    simp

theorem yearTimestamps_countP_fst (y : Nat) (p : Nat → Bool) :
    (yearTimestamps y).countP (fun t => p t.1) =
      (((List.range 12).map (· + 1)).map fun m =>
        if p m then monthrange y m * 24 else 0).sum := by
  unfold yearTimestamps
  rw [countP_flatMap]
  simp only [List.map_map, Function.comp_def, monthBlock_countP_fst]

/-! ### Point-mode extraction (`extract_year`, lines 119-141)

For each timestamp and variable the code checks whether the expected
archive file exists; if not, it writes `np.nan` into the row and
continues; if it does, it opens the file with `nc.Dataset` (a step that
can raise: corrupt file, permission error) and gathers
`grid[lat_idx, lon_idx]`.  `FileRead` is the outcome of the archive
lookup for one `(variable, timestamp)`. -/

inductive FileRead where
  | absent : FileRead
  | ok : List (List ℚ) → FileRead
  | readError : String → FileRead
deriving DecidableEq

/-- `grid[lat_idx, lon_idx]` for one entity. -/
def readCell (g : List (List ℚ)) (i j : Nat) : ℚ := (g.getD i []).getD j 0

/-- One loop body of `extract_year` for a single entity and a single
`(variable, timestamp)`: absent file → sentinel (`none`); readable file →
the gathered value; unreadable file → an uncaught exception
(`Except.error`), since the code has no handler around `nc.Dataset`. -/
def readStep (files : TS → FileRead) (i j : Nat) (t : TS) : Except String (Option ℚ) :=
  match files t with
  | .absent => .ok none
  | .ok g => .ok (some (readCell g i j))
  | .readError m => .error m

/-- Run the loop over a timestamp list: the first uncaught exception
aborts the whole loop (Python exception propagation). -/
def runSteps (f : TS → Except String (Option ℚ)) : List TS → Except String (List (Option ℚ))
  | [] => .ok []
  | t :: ts =>
    match f t with
    | .error m => .error m
    | .ok v =>
      match runSteps f ts with
      | .error m => .error m
      | .ok vs => .ok (v :: vs)

/-- One entity's SeriesBuffer for one variable, as filled by
`extract_year`: the loop of lines 122-141 over the full year's
timestamps, at the entity's precomputed indices `(i, j)`. -/
def extract_series (y : Nat) (files : TS → FileRead) (i j : Nat) :
    Except String (List (Option ℚ)) :=
  runSteps (readStep files i j) (yearTimestamps y)

/-- The cell value produced for timestamp `t` when no exception occurs. -/
def cellOf (files : TS → FileRead) (i j : Nat) (t : TS) : Option ℚ :=
  match files t with
  | .absent => none
  | .ok g => some (readCell g i j)
  | .readError _ => none

/-- Whether the archive lookup outcome is an unreadable present file. -/
def isReadError : FileRead → Bool
  | .readError _ => true
  | _ => false

theorem runSteps_ok_of_no_error (files : TS → FileRead) (i j : Nat) :
    ∀ l : List TS, (∀ t ∈ l, isReadError (files t) = false) →
      runSteps (readStep files i j) l = .ok (l.map (cellOf files i j))
  | [], _ => rfl
  | t :: ts, h => by
    have ht := h t (List.mem_cons_self t ts)
    have ih := runSteps_ok_of_no_error files i j ts
      (fun u hu => h u (List.mem_cons_of_mem t hu))
    unfold runSteps
    rw [ih]
    cases hf : files t with
    | absent => simp [readStep, cellOf, hf]
    | ok g => simp [readStep, cellOf, hf]
    | readError m => rw [hf] at ht; simp [isReadError] at ht

theorem runSteps_error_of_error (files : TS → FileRead) (i j : Nat) :
    ∀ l : List TS, (∃ t ∈ l, isReadError (files t) = true) →
      ∃ m, runSteps (readStep files i j) l = .error m
  | [], h => by simp at h
  | t :: ts, h => by
    unfold runSteps
    cases hf : files t with
    | absent =>
      obtain ⟨u, hu, herr⟩ := h
      rcases List.mem_cons.mp hu with rfl | hu
      · rw [hf] at herr; simp [isReadError] at herr
      · obtain ⟨m, hm⟩ := runSteps_error_of_error files i j ts ⟨u, hu, herr⟩
        rw [hm]
        exact ⟨m, by simp [readStep, hf]⟩
    | ok g =>
      obtain ⟨u, hu, herr⟩ := h
      rcases List.mem_cons.mp hu with rfl | hu
      · rw [hf] at herr; simp [isReadError] at herr
      · obtain ⟨m, hm⟩ := runSteps_error_of_error files i j ts ⟨u, hu, herr⟩
        rw [hm]
        exact ⟨m, by simp [readStep, hf]⟩
    | readError m => exact ⟨m, by simp [readStep, hf]⟩

theorem runSteps_ok_iff (files : TS → FileRead) (i j : Nat) (l : List TS) :
    (∃ buf, runSteps (readStep files i j) l = .ok buf) ↔
      ∀ t ∈ l, isReadError (files t) = false := by
  constructor
  · intro ⟨buf, hbuf⟩ t ht
    by_contra hc
    obtain ⟨m, hm⟩ := runSteps_error_of_error files i j l
      ⟨t, ht, by revert hc; cases isReadError (files t) <;> simp⟩
    rw [hm] at hbuf
    exact Except.noConfusion hbuf
  · intro h
    exact ⟨_, runSteps_ok_of_no_error files i j l h⟩

/-! ### Region-mode extraction (`extract_era5_cities.py`)

The archive holds one file per timestep per variable
(`YYYY/MM/DD/ecmwf-era5_oper_an_sfc_YYYYMMDDHHMM.<var>.nc`); an existence
predicate `ex y m v d h` models which files are on disk.  `get_era5_files`
(lines 40-56) iterates the sorted day directories and the sorted files of
each day, so it returns the month's existing `(day, hour)` stamps in
chronological order. -/

/-- A timestamp carrying its year: `(year, month, day, hour)`. -/
abbrev TS4 := Nat × Nat × Nat × Nat

/-- Chronological strict order on year-carrying timestamps. -/
def chron4Lt (a b : TS4) : Prop :=
  a.1 < b.1 ∨ (a.1 = b.1 ∧ chronLt (a.2.1, a.2.2.1, a.2.2.2) (b.2.1, b.2.2.1, b.2.2.2))

instance (a b : TS4) : Decidable (chron4Lt a b) := by
  unfold chron4Lt; infer_instance

/-- Non-strict chronological order on year-carrying timestamps. -/
def chron4Le (a b : TS4) : Prop := a = b ∨ chron4Lt a b

instance (a b : TS4) : Decidable (chron4Le a b) := by
  unfold chron4Le; infer_instance

/-- `get_era5_files(year, month, variable)`: the `(day, hour)` stamps of
the month's existing files for one variable, in sorted directory/glob
order (day directories sorted, files within a day sorted by name, i.e.
by hour). -/
def get_era5_files (ex : Nat → Nat → String → Nat → Nat → Bool)
    (y m : Nat) (v : String) : List (Nat × Nat) :=
  ((List.range (monthrange y m)).map (· + 1)).flatMap fun d =>
    ((List.range 24).filter fun h => ex y m v d h).map fun h => (d, h)

/-- The time axis of the dataset built by `extract_city_data`
(lines 82-109): the loop `for year: for month: for var:` appends each
found file's timestep to `datasets`, and `xr.concat(datasets, dim="time")`
concatenates the fragments' time coordinates in that append order. -/
def region_time_axis (ex : Nat → Nat → String → Nat → Nat → Bool)
    (years : List Nat) (vars : List String) : List TS4 :=
  years.flatMap fun y =>
    ((List.range 12).map (· + 1)).flatMap fun m =>
      vars.flatMap fun v =>
        (get_era5_files ex y m v).map fun dh => (y, m, dh.1, dh.2)

/-- An in-memory dataset: a time axis plus the two spatial coordinate
axes (latitude descending, longitude ascending, as in ERA5). -/
structure DataSet where
  times : List TS4
  lats : List ℚ
  lons : List ℚ
deriving DecidableEq

/-- `ds.sel(latitude=slice(max_lat, min_lat), longitude=slice(min_lon,
max_lon))` (lines 97-100): label-based slicing on monotone axes keeps the
coordinates lying inside the closed interval, in axis order; on a
descending latitude axis the bounds are given high-to-low, on the
ascending longitude axis low-to-high.  A slice whose bounds cross selects
nothing. -/
def sel_bbox (ds : DataSet) (maxLat minLat minLon maxLon : ℚ) : DataSet where
  times := ds.times
  lats := ds.lats.filter fun x => decide (minLat ≤ x ∧ x ≤ maxLat)
  lons := ds.lons.filter fun x => decide (minLon ≤ x ∧ x ≤ maxLon)

/-- Lines 93-109 of `extract_era5_cities.py` for one entity: slice each
found file to the bounding box, append, and concatenate along `time`
(`xr.concat` keeps every fragment's time points, in append order; the
shared spatial axes are those of the fragments).  Returns `none` when no
file was found (`if not datasets: return None`). -/
def extract_city_region (files : List DataSet) (maxLat minLat minLon maxLon : ℚ) :
    Option DataSet :=
  match files.map (fun ds => sel_bbox ds maxLat minLat minLon maxLon) with
  | [] => none
  | d :: rest =>
    some { times := (d :: rest).flatMap DataSet.times, lats := d.lats, lons := d.lons }

/-! ### Per-entity loops of the two strategies

Point strategy (`extract_year`, lines 147-173): the per-city save loop
has no exception handler, so one failing write aborts the loop and the
remaining cities are never written.

Region strategy (`main` of `extract_era5_cities.py`, lines 155-162): the
all-cities loop wraps each city in `try/except`, prints the error and
continues with the next city. -/

/-- The point strategy's per-city artifact save loop: no handler, the
first failing write propagates. -/
def point_save_loop (write : Nat → Except String Unit) : List Nat → Except String (List Nat)
  | [] => .ok []
  | e :: es =>
    match write e with
    | .error m => .error m
    | .ok _ =>
      match point_save_loop write es with
      | .error m => .error m
      | .ok done => .ok (e :: done)

/-- The region strategy's all-cities loop: each city's outcome is caught
and recorded (`none` = success, `some msg` = reported failure) and the
loop continues with the next city. -/
def region_main_loop (extract : Nat → Except String Unit) : List Nat → List (Nat × Option String)
  | [] => []
  | e :: es =>
    (e, match extract e with | .ok _ => none | .error m => some m) ::
      region_main_loop extract es

/-! ### Helper lemmas about `argminAbs` -/

theorem argminAbs_lt_length (grid : List ℚ) (q : ℚ) (h : grid ≠ []) :
    argminAbs grid q < grid.length := by
  have := argminList_lt_length (grid.map fun g => qabs (g - q)) (by simpa using h)
  simpa [argminAbs] using this

theorem getD_map_qabs (grid : List ℚ) (q : ℚ) {k : Nat} (hk : k < grid.length) :
    (grid.map fun g => qabs (g - q)).getD k 0 = qabs (grid.getD k 0 - q) := by
  rw [List.getD_eq_getElem _ 0 (by simpa using hk), List.getD_eq_getElem _ 0 hk,
    List.getElem_map]

theorem argminAbs_le (grid : List ℚ) (q : ℚ) (h : grid ≠ []) (i : Nat)
    (hi : i < grid.length) :
    qabs (grid.getD (argminAbs grid q) 0 - q) ≤ qabs (grid.getD i 0 - q) := by
  have hk : argminAbs grid q < grid.length := argminAbs_lt_length grid q h
  have h1 := argminList_le (grid.map fun g => qabs (g - q)) i (by simpa using hi)
  rwa [show argminList (grid.map fun g => qabs (g - q)) = argminAbs grid q from rfl,
    getD_map_qabs grid q hk, getD_map_qabs grid q hi] at h1

theorem argminAbs_first (grid : List ℚ) (q : ℚ) (j : Nat) (hj : j < argminAbs grid q) :
    qabs (grid.getD (argminAbs grid q) 0 - q) < qabs (grid.getD j 0 - q) := by
  have h : grid ≠ [] := by
    rintro rfl
    simp [argminAbs, argminList] at hj
  have hk : argminAbs grid q < grid.length := argminAbs_lt_length grid q h
  have hjl : j < grid.length := hj.trans hk
  have h1 := argminList_first (grid.map fun g => qabs (g - q)) j
    (by simpa [argminAbs] using hj)
  rw [show argminList (grid.map fun g => qabs (g - q)) = argminAbs grid q from rfl,
    getD_map_qabs grid q hk, getD_map_qabs grid q hjl] at h1
  exact h1

/-! ### Sortedness of the region-mode time axis (single variable) -/

theorem get_era5_files_sorted (ex : Nat → Nat → String → Nat → Nat → Bool)
    (y m : Nat) (v : String) :
    (get_era5_files ex y m v).Pairwise
      fun a b => a.1 < b.1 ∨ (a.1 = b.1 ∧ a.2 < b.2) := by
  unfold get_era5_files
  refine pairwise_flatMap _ _ (fun d _ => ?_) ?_
  · refine List.Pairwise.map _ (fun a b hab => Or.inr ⟨rfl, hab⟩) ?_
    exact List.Pairwise.filter _ (List.pairwise_lt_range 24)
  · have hdays : ((List.range (monthrange y m)).map (· + 1)).Pairwise (· < ·) :=
      List.Pairwise.map _ (fun a b h => Nat.add_lt_add_right h 1) (List.pairwise_lt_range _)
    refine hdays.imp ?_
    intro d1 d2 hd u hu w hw
    obtain ⟨h1, _, rfl⟩ := List.mem_map.mp hu
    obtain ⟨h2, _, rfl⟩ := List.mem_map.mp hw
    exact Or.inl hd

theorem mem_region_month_block {ex : Nat → Nat → String → Nat → Nat → Bool}
    {y m : Nat} {vars : List String} {x : TS4}
    (hx : x ∈ vars.flatMap fun v =>
      (get_era5_files ex y m v).map fun dh => ((y, m, dh.1, dh.2) : TS4)) :
    x.1 = y ∧ x.2.1 = m := by
  obtain ⟨v, _, hx⟩ := List.mem_flatMap.mp hx
  obtain ⟨dh, _, rfl⟩ := List.mem_map.mp hx
  exact ⟨rfl, rfl⟩

theorem region_single_var_sorted (ex : Nat → Nat → String → Nat → Nat → Bool)
    (v : String) (years : List Nat) (hyears : years.Pairwise (· < ·)) :
    (region_time_axis ex years [v]).Pairwise chron4Lt := by
  unfold region_time_axis
  refine pairwise_flatMap _ _ (fun yy _ => ?_) ?_
  · refine pairwise_flatMap _ _ (fun m _ => ?_) ?_
    · have hsingle : ([v].flatMap fun u =>
          (get_era5_files ex yy m u).map fun dh => ((yy, m, dh.1, dh.2) : TS4))
          = (get_era5_files ex yy m v).map fun dh => (yy, m, dh.1, dh.2) := by
        simp
      rw [hsingle]
      refine List.Pairwise.map _ ?_ (get_era5_files_sorted ex yy m v)
      rintro a b (hab | ⟨heq, hab⟩)
      · exact Or.inr ⟨rfl, Or.inr ⟨rfl, Or.inl hab⟩⟩
      · exact Or.inr ⟨rfl, Or.inr ⟨rfl, Or.inr ⟨heq, hab⟩⟩⟩
    · have hms : ((List.range 12).map (· + 1)).Pairwise (· < ·) :=
        List.Pairwise.map _ (fun a b h => Nat.add_lt_add_right h 1) (List.pairwise_lt_range _)
      refine hms.imp ?_
      intro m1 m2 hm x1 hx1 x2 hx2
      have a1 := mem_region_month_block hx1
      have a2 := mem_region_month_block hx2
      refine Or.inr ⟨a1.1.trans a2.1.symm, Or.inl ?_⟩
      rw [a1.2, a2.2]
      exact hm
  · refine hyears.imp ?_
    intro y1 y2 hy x1 hx1 x2 hx2
    obtain ⟨m1, _, hx1m⟩ := List.mem_flatMap.mp hx1
    obtain ⟨m2, _, hx2m⟩ := List.mem_flatMap.mp hx2
    have a1 := mem_region_month_block hx1m
    have a2 := mem_region_month_block hx2m
    left
    rw [a1.1, a2.1]
    exact hy

/-! ### Concrete archives and entity-write outcomes used by the scenarios -/

/-- The archive of end-to-end scenario B: exactly the February files are
absent, every other file is readable with field `g`. -/
def febAbsent (g : List (List ℚ)) (t : TS) : FileRead :=
  if t.1 = 2 then .absent else .ok g

/-- An archive whose file for Jan 1, 00:00 is present but unreadable
(corrupt or permission-denied); every other file is readable. -/
def corruptJan1 (g : List (List ℚ)) (t : TS) : FileRead :=
  if t = (1, 1, 0) then .readError "permission denied" else .ok g

/-- The multi-variable region-mode archive: files exist exactly for
2021-01-01 00:00 and 2021-01-02 00:00, for every variable. -/
def exJan2 (y m : Nat) (_v : String) (d h : Nat) : Bool :=
  y == 2021 && m == 1 && decide (d ≤ 2) && h == 0

/-- A per-entity writer that fails on entity 1 and succeeds elsewhere. -/
def wFailFirst (e : Nat) : Except String Unit :=
  if e = 1 then .error "disk full" else .ok ()

theorem countP_feb_672 :
    (yearTimestamps 2021).countP (fun t => decide (t.1 = 2)) = 672 :=
  (yearTimestamps_countP_fst 2021 (fun m => decide (m = 2))).trans (by decide)

theorem countP_not_feb_8088 :
    (yearTimestamps 2021).countP (fun t => !decide (t.1 = 2)) = 8088 :=
  (yearTimestamps_countP_fst 2021 (fun m => !decide (m = 2))).trans (by decide)

/-! ### The claims -/

/-- Claim C1 counterexample: the entity at latitude 95 lies strictly above
every latitude of the grid [10, 0, -10] (out of bounds), yet
`precompute_indices` silently returns the valid, edge-clamped index pair
(0, 0) for it — it does not fail, and it does not report the entity. -/
theorem claim_C1_counterexample :
    precompute_indices [10, 0, -10] [0, 90, 180, 270] [(95, 20)] = [(0, 0)]
    ∧ ∀ x ∈ ([10, 0, -10] : List ℚ), x < 95 := by
  constructor
  · norm_num [precompute_indices, argminAbs, argminList, qabs, lon_to_360]
  · intro x hx
    fin_cases hx <;> norm_num

/-- Claim C1 (amended): `precompute_indices` never fails and never drops
an entity: it returns exactly one index pair per entity, in entity order,
and every returned index is a valid index into the corresponding
nonempty grid axis — an out-of-bounds coordinate is resolved to the
nearest (edge) cell rather than rejected. -/
theorem claim_C1 (gridLats gridLons : List ℚ) (cities : List (ℚ × ℚ))
    (hlat : gridLats ≠ []) (hlon : gridLons ≠ []) :
    (precompute_indices gridLats gridLons cities).length = cities.length
    ∧ ∀ p ∈ precompute_indices gridLats gridLons cities,
        p.1 < gridLats.length ∧ p.2 < gridLons.length := by
  constructor
  · simp [precompute_indices]
  · intro p hp
    obtain ⟨c, _, rfl⟩ := List.mem_map.mp hp
    exact ⟨argminAbs_lt_length gridLats c.1 hlat,
      argminAbs_lt_length gridLons (lon_to_360 c.2) hlon⟩

/-- Claim C1 witness: the amended statement at the out-of-bounds entity. -/
theorem claim_C1_witness :
    (precompute_indices [10, 0, -10] [0, 90, 180, 270] [(95, 20)]).length
        = ([((95 : ℚ), (20 : ℚ))]).length
    ∧ ∀ p ∈ precompute_indices [10, 0, -10] [0, 90, 180, 270] [(95, 20)],
        p.1 < ([10, 0, -10] : List ℚ).length ∧ p.2 < ([0, 90, 180, 270] : List ℚ).length :=
  claim_C1 [10, 0, -10] [0, 90, 180, 270] [(95, 20)] (by simp) (by simp)

/-- Claim C2: in point mode, when no present file is unreadable the whole
year extracts without an exception, the cell of every timestamp whose
file is absent is the sentinel `none`; and in scenario B (year 2021,
exactly the February files absent) every entity's buffer holds exactly
672 sentinel cells and 8088 non-sentinel cells. -/
theorem claim_C2 :
    (∀ (y : Nat) (files : TS → FileRead) (i j : Nat),
      (∀ t ∈ yearTimestamps y, isReadError (files t) = false) →
        extract_series y files i j = .ok ((yearTimestamps y).map (cellOf files i j))
        ∧ ∀ t ∈ yearTimestamps y, files t = .absent → cellOf files i j t = none)
    ∧ ∀ (g : List (List ℚ)) (i j : Nat),
        ∃ buf, extract_series 2021 (febAbsent g) i j = .ok buf
          ∧ buf.countP (fun c => c.isNone) = 672
          ∧ buf.countP (fun c => c.isSome) = 8088 := by
  constructor
  · intro y files i j hno
    refine ⟨runSteps_ok_of_no_error files i j _ hno, ?_⟩
    intro t _ ha
    simp [cellOf, ha]
  · intro g i j
    have hno : ∀ t ∈ yearTimestamps 2021, isReadError (febAbsent g t) = false := by
      intro t _
      by_cases h : t.1 = 2 <;> simp [febAbsent, isReadError, h]
    refine ⟨(yearTimestamps 2021).map (cellOf (febAbsent g) i j),
      runSteps_ok_of_no_error (febAbsent g) i j _ hno, ?_, ?_⟩
    · rw [List.countP_map]
      refine (List.countP_congr ?_).trans countP_feb_672
      intro t _
      by_cases h : t.1 = 2 <;> simp [Function.comp_def, cellOf, febAbsent, h]
    · rw [List.countP_map]
      refine (List.countP_congr ?_).trans countP_not_feb_8088
      intro t _
      by_cases h : t.1 = 2 <;> simp [Function.comp_def, cellOf, febAbsent, h]

/-- Claim C2 witness: the general part of C2 instantiated at the
scenario-B archive. -/
theorem claim_C2_witness :
    extract_series 2021 (febAbsent [[5]]) 0 0
      = .ok ((yearTimestamps 2021).map (cellOf (febAbsent [[5]]) 0 0))
    ∧ ∀ t ∈ yearTimestamps 2021,
        febAbsent [[5]] t = .absent → cellOf (febAbsent [[5]]) 0 0 t = none :=
  claim_C2.1 2021 (febAbsent [[5]]) 0 0
    (by intro t ht; by_cases h : t.1 = 2 <;> simp [febAbsent, isReadError, h])

/-- Claim C3: for every year, the generated timestamp sequence has length
(366 if leap else 365) × 24, is strictly increasing chronologically, has
no duplicates, and contains every hour of every day of the year. -/
theorem claim_C3 (y : Nat) :
    (yearTimestamps y).length = (if isLeap y then 366 else 365) * 24
    ∧ (yearTimestamps y).Pairwise chronLt
    ∧ (yearTimestamps y).Nodup
    ∧ ∀ m d h : Nat, 1 ≤ m → m ≤ 12 → 1 ≤ d → d ≤ monthrange y m → h < 24 →
        ((m, d, h) : TS) ∈ yearTimestamps y :=
  ⟨yearTimestamps_length y, yearTimestamps_sorted y, yearTimestamps_nodup y,
    fun _ _ _ h1 h2 h3 h4 h5 => mem_yearTimestamps h1 h2 h3 h4 h5⟩

/-- Claim C3 witness: the completeness part at a concrete hour of 2021. -/
theorem claim_C3_witness : ((7, 15, 12) : TS) ∈ yearTimestamps 2021 :=
  (claim_C3 2021).2.2.2 7 15 12 (by decide) (by decide) (by decide) (by decide) (by decide)

/-- Claim C4: per-axis nearest lookup returns the index minimizing the
absolute difference, lowest index on an exact tie; and in scenario A
(latitudes [10, 0, -10], longitudes [0, 90, 180, 270], entity at lat 2,
lon -10 normalized to 350) it yields lat index 1 and lon index 3. -/
theorem claim_C4 :
    (∀ (grid : List ℚ) (q : ℚ), grid ≠ [] →
      argminAbs grid q < grid.length
      ∧ (∀ i, i < grid.length →
          qabs (grid.getD (argminAbs grid q) 0 - q) ≤ qabs (grid.getD i 0 - q))
      ∧ ∀ j, j < argminAbs grid q →
          qabs (grid.getD (argminAbs grid q) 0 - q) < qabs (grid.getD j 0 - q))
    ∧ lon_to_360 (-10) = 350
    ∧ argminAbs [10, 0, -10] 2 = 1
    ∧ argminAbs [0, 90, 180, 270] (lon_to_360 (-10)) = 3 := by
  refine ⟨fun grid q h => ⟨argminAbs_lt_length grid q h,
      fun i hi => argminAbs_le grid q h i hi,
      fun j hj => argminAbs_first grid q j hj⟩, ?_, ?_, ?_⟩
  · norm_num [lon_to_360]
  · norm_num [argminAbs, argminList, qabs]
  · norm_num [argminAbs, argminList, qabs, lon_to_360]

/-- Claim C4 witness: the general minimality statement at the scenario-A
latitude grid and query. -/
theorem claim_C4_witness :
    argminAbs [10, 0, -10] 2 < ([10, 0, -10] : List ℚ).length
    ∧ (∀ i, i < ([10, 0, -10] : List ℚ).length →
        qabs (([10, 0, -10] : List ℚ).getD (argminAbs [10, 0, -10] 2) 0 - 2)
          ≤ qabs (([10, 0, -10] : List ℚ).getD i 0 - 2))
    ∧ ∀ j, j < argminAbs [10, 0, -10] 2 →
        qabs (([10, 0, -10] : List ℚ).getD (argminAbs [10, 0, -10] 2) 0 - 2)
          < qabs (([10, 0, -10] : List ℚ).getD j 0 - 2) :=
  claim_C4.1 [10, 0, -10] 2 (by simp)

/-- Claim C5 counterexample: a region-mode run with two variables over an
archive holding files for Jan 1 and Jan 2 produces the concatenated time
axis [Jan 1, Jan 2, Jan 1, Jan 2] — the inner `for var` loop restarts the
month for the second variable, so the axis is not non-decreasing. -/
theorem claim_C5_counterexample :
    region_time_axis exJan2 [2021] ["2t", "2d"]
      = [(2021, 1, 1, 0), (2021, 1, 2, 0), (2021, 1, 1, 0), (2021, 1, 2, 0)]
    ∧ ¬ (region_time_axis exJan2 [2021] ["2t", "2d"]).Pairwise chron4Le := by
  constructor <;> decide

/-- Claim C5 (amended): the point strategy's output time axis is always
strictly chronological (never reordered or deduplicated), and the region
strategy's concatenated time axis is strictly chronological for
single-variable runs over increasing years; in a multi-variable region
run the axis revisits each month once per variable and is not
chronological. -/
theorem claim_C5 :
    (∀ y : Nat, (yearTimestamps y).Pairwise chronLt)
    ∧ ∀ (ex : Nat → Nat → String → Nat → Nat → Bool) (v : String) (years : List Nat),
        years.Pairwise (· < ·) → (region_time_axis ex years [v]).Pairwise chron4Lt :=
  ⟨yearTimestamps_sorted, fun ex v years h => region_single_var_sorted ex v years h⟩

/-- Claim C5 witness: the single-variable region axis over the concrete
two-file archive is strictly chronological. -/
theorem claim_C5_witness :
    (region_time_axis exJan2 [2021] ["2t"]).Pairwise chron4Lt :=
  claim_C5.2 exJan2 "2t" [2021] (by simp)

/-- Claim C6: region-mode extraction of a bounding box covering a 2×2
cell range from 2 files concatenates to a dataset whose spatial axes have
2×2 entries and whose time axis is exactly the two files' timestamps in
encountered order (length = total found, duplicates kept). -/
theorem claim_C6 (t1 t2 : List TS4) :
    extract_city_region
      [⟨t1, [30, 20, 10, 0], [0, 10, 20, 30]⟩, ⟨t2, [30, 20, 10, 0], [0, 10, 20, 30]⟩]
      25 5 5 25
      = some ⟨t1 ++ t2, [20, 10], [10, 20]⟩
    ∧ (t1 ++ t2).length = t1.length + t2.length := by
  constructor
  · simp only [extract_city_region, sel_bbox, List.map_cons, List.map_nil]
    simp
    exact ⟨by decide, by decide⟩
  · simp

/-- Claim C7: longitude normalization is the identity on [0, 360), is
idempotent, sends -30 and 330 to the same value, and therefore both
resolve to the same grid column index. -/
theorem claim_C7 :
    (∀ q : ℚ, 0 ≤ q → q < 360 → lon_to_360 q = q)
    ∧ (∀ q : ℚ, lon_to_360 (lon_to_360 q) = lon_to_360 q)
    ∧ lon_to_360 (-30) = lon_to_360 330
    ∧ ∀ glons : List ℚ,
        argminAbs glons (lon_to_360 (-30)) = argminAbs glons (lon_to_360 330) := by
  have hid : ∀ q : ℚ, 0 ≤ q → q < 360 → lon_to_360 q = q := by
    intro q h0 h1
    have hf : ⌊q / 360⌋ = 0 := by
      rw [Int.floor_eq_zero_iff]
      exact ⟨div_nonneg h0 (by norm_num), (div_lt_one (by norm_num)).mpr h1⟩
    simp [lon_to_360, hf]
  have hrange : ∀ q : ℚ, 0 ≤ lon_to_360 q ∧ lon_to_360 q < 360 := by
    intro q
    have heq : lon_to_360 q = 360 * Int.fract (q / 360) := by
      rw [lon_to_360, Int.fract]
      ring
    refine ⟨?_, ?_⟩
    · rw [heq]
      exact mul_nonneg (by norm_num) (Int.fract_nonneg _)
    · rw [heq]
      have := Int.fract_lt_one (q / 360)
      linarith
  refine ⟨hid, fun q => hid _ (hrange q).1 (hrange q).2, by norm_num [lon_to_360], ?_⟩
  intro glons
  rw [show lon_to_360 (-30) = lon_to_360 330 by norm_num [lon_to_360]]

/-- Claim C7 witness: the identity part at 42. -/
theorem claim_C7_witness : lon_to_360 42 = 42 :=
  claim_C7.1 42 (by norm_num) (by norm_num)

/-- Claim C8 counterexample: with a writer failing on the first of two
entities, the point strategy's save loop aborts with the error and never
reaches entity 2, while the region strategy's loop records the failure
and still processes entity 2. -/
theorem claim_C8_counterexample :
    point_save_loop wFailFirst [1, 2] = .error "disk full"
    ∧ region_main_loop wFailFirst [1, 2] = [(1, some "disk full"), (2, none)] := by
  constructor <;> rfl

/-- Claim C8 (amended): only the region strategy's all-cities loop has
per-entity recovery — every entity is processed no matter which fail, and
a failing entity's error is recorded before moving on; in the point
strategy a failure writing one entity's artifact propagates out of the
save loop and aborts processing of the remaining entities. -/
theorem claim_C8 :
    (∀ (f : Nat → Except String Unit) (ids : List Nat),
        (region_main_loop f ids).map Prod.fst = ids)
    ∧ (∀ (f : Nat → Except String Unit) (e : Nat) (ids : List Nat) (m : String),
        f e = .error m →
        region_main_loop f (e :: ids) = (e, some m) :: region_main_loop f ids)
    ∧ ∀ (w : Nat → Except String Unit) (e : Nat) (es : List Nat) (m : String),
        w e = .error m → point_save_loop w (e :: es) = .error m := by
  refine ⟨?_, ?_, ?_⟩
  · intro f ids
    induction ids with
    | nil => rfl
    | cons e es ih => simp [region_main_loop, ih]
  · intro f e ids m hm
    simp [region_main_loop, hm]
  · intro w e es m hm
    simp [point_save_loop, hm]

/-- Claim C8 witness: the point-strategy abort at the concrete failing
writer. -/
theorem claim_C8_witness : point_save_loop wFailFirst (1 :: [2]) = .error "disk full" :=
  claim_C8.2.2 wFailFirst 1 [2] "disk full" rfl

/-- Claim C9 counterexample: in point mode a present-but-unreadable file
(Jan 1, 00:00) aborts the entire year's extraction with the propagated
exception — it is not reported-and-continued. -/
theorem claim_C9_counterexample :
    extract_series 2021 (corruptJan1 [[0]]) 0 0 = .error "permission denied" := by
  rfl

/-- Claim C9 (amended): in point mode a read failure on a present file is
not recorded as an absent-file sentinel — an absent file yields the
sentinel cell `none` without an exception, while the extraction succeeds
if and only if no present file is unreadable: the first unreadable file
propagates as an exception and aborts the whole run. -/
theorem claim_C9 (y : Nat) (files : TS → FileRead) (i j : Nat) :
    ((∃ buf, extract_series y files i j = .ok buf) ↔
      ∀ t ∈ yearTimestamps y, isReadError (files t) = false)
    ∧ ∀ t : TS, files t = .absent → readStep files i j t = .ok none :=
  ⟨runSteps_ok_iff files i j (yearTimestamps y), fun _ ha => by simp [readStep, ha]⟩

/-- Claim C9 witness: the sentinel part at a concrete absent file. -/
theorem claim_C9_witness :
    readStep (febAbsent [[0]]) 0 0 (2, 1, 0) = .ok none :=
  (claim_C9 2021 (febAbsent [[0]]) 0 0).2 (2, 1, 0) rfl

/-- Claim C10: a bounding box crossing the antimeridian (min_lon = -10 →
350, max_lon = 10) yields crossed slice bounds on the ascending longitude
axis, so the longitude selection is empty: extraction silently returns a
dataset with a zero-width longitude dimension and no error. -/
theorem claim_C10 :
    lon_to_360 (-10) = 350 ∧ lon_to_360 10 = 10
    ∧ (∀ (ds : DataSet) (maxLat minLat minLon maxLon : ℚ), maxLon < minLon →
        (sel_bbox ds maxLat minLat minLon maxLon).lons = [])
    ∧ ∀ t1 : List TS4,
        extract_city_region [⟨t1, [30, 20, 10, 0], [0, 10, 20, 30]⟩]
          25 5 (lon_to_360 (-10)) (lon_to_360 10)
          = some ⟨t1, [20, 10], []⟩ := by
  refine ⟨by norm_num [lon_to_360], by norm_num [lon_to_360], ?_, ?_⟩
  · intro ds maxLat minLat minLon maxLon hlt
    simp only [sel_bbox]
    rw [List.filter_eq_nil_iff]
    intro x _
    simp only [decide_eq_true_eq, not_and]
    intro h1 h2
    exact absurd (h1.trans h2) (not_le.mpr hlt)
  · intro t1
    rw [show lon_to_360 (-10) = 350 by norm_num [lon_to_360],
      show lon_to_360 10 = 10 by norm_num [lon_to_360]]
    simp [extract_city_region, sel_bbox]
    refine ⟨by decide, by decide, by decide, by decide⟩

/-- Claim C10 witness: the empty-slice part at concrete crossed bounds. -/
theorem claim_C10_witness :
    (sel_bbox ⟨[], [0], [0, 90]⟩ 0 0 350 10).lons = [] :=
  claim_C10.2.2.1 ⟨[], [0], [0, 90]⟩ 0 0 350 10 (by norm_num)

end Era5
